/-
  Verification of the Re-AG reasoning client (reag/client.py, reag/memory.py).

  The Python source is shallowly embedded: Python `Union[str, int]` metadata
  values become `Value`, JSON values become `JVal`, exceptions become an
  explicit `PyErr` error monad (`Except PyErr _`), and the external calls
  (litellm `acompletion`, `json.loads`, `re.match`) are abstracted as
  explicit parameters / outcome data, documented at each definition.
-/
import Mathlib

namespace Reag

/-! ### String helpers mirroring the Python primitives used by client.py -/

/-- Python whitespace for `str.strip` / regex `\s` (ASCII part: space, tab,
newline, carriage return, vertical tab, form feed). -/
def pySpace (c : Char) : Bool :=
  c = ' ' || c = '\t' || c = '\n' || c = '\r' || c = Char.ofNat 11 || c = Char.ofNat 12

/-- Python `str.strip()` on a character list. -/
def pyStripList (cs : List Char) : List Char :=
  ((cs.dropWhile pySpace).reverse.dropWhile pySpace).reverse

/-- Lower-case a character list (Python `str.lower()`, ASCII fragment). -/
def lowerChars (cs : List Char) : List Char := cs.map Char.toLower

/-- Index of the first occurrence of `pat` as a contiguous sublist
(Python `str.find` / the position at which `re.search` of a literal succeeds). -/
def findSub (pat : List Char) : List Char → Option Nat
  | [] => if pat.isEmpty then some 0 else none
  | c :: rest =>
    if pat.isPrefixOf (c :: rest) then some 0
    else (findSub pat rest).map (· + 1)

/-- Python `s.startswith(t)`. -/
def pyStartsWith (s t : String) : Bool := t.toList.isPrefixOf s.toList

/-- Python `s.endswith(t)`. -/
def pyEndsWith (s t : String) : Bool := t.toList.isSuffixOf s.toList

/-- Python `needle in hay` (contiguous substring test). -/
def strContains (hay needle : String) : Bool :=
  (findSub needle.toList hay.toList).isSome

/-- Python `<` on strings: lexicographic comparison by code point. -/
def strLt : List Char → List Char → Bool
  | [], [] => false
  | [], _ :: _ => true
  | _ :: _, [] => false
  | a :: as, b :: bs => if a < b then true else if b < a then false else strLt as bs

/-! ### Data model (client.py `Document`, `MetadataFilter`, `QueryResult`) -/

/-- A metadata value: Python `Union[str, int]`. -/
inductive Value where
  | str (s : String)
  | int (n : Int)

/-- client.py `Document`.  The metadata dict becomes an association list
(`none` = Python `None`). -/
structure Document where
  name : String
  content : String
  metadata : Option (List (String × Value))

/-- client.py `MetadataFilter` (`operator=None` means the default `"equals"`). -/
structure MetadataFilter where
  key : String
  value : Value
  operator : Option String

/-- Python `==` on `Union[str, int]` values: cross-type comparison is `False`. -/
def valEq : Value → Value → Bool
  | .str a, .str b => a == b
  | .int a, .int b => a == b
  | _, _ => false

/-! ### Metadata filter evaluator (client.py `_filter_documents_by_metadata`)

`reMatch pat s` abstracts the external `re.match(pat, s) is not None`
(anchored-at-start regex match); the Python regex engine is outside this
embedding, so it is a parameter of every definition that uses it.
Raising a `TypeError` is modelled by returning `none`. -/

/-- The operator dispatch of `passes_filter` (client.py lines 83-105), applied
to the stored value `val` and the filter value `w`.  `some b` is a returned
boolean; `none` is a raised `TypeError` (Python `in` / `startswith` /
`re.match` with an `int` argument, or an order comparison between `int` and
`str`). -/
def opApply (reMatch : String → String → Bool) (op : String) (val w : Value) :
    Option Bool :=
  if op = "equals" then some (valEq val w)
  else if op = "notEquals" then some (!valEq val w)
  else if op = "contains" then
    match val, w with
    | .str s, .str t => some (strContains s t)
    | .str _, .int _ => none
    | .int _, _ => some false
  else if op = "startsWith" then
    match val, w with
    | .str s, .str t => some (pyStartsWith s t)
    | .str _, .int _ => none
    | .int _, _ => some false
  else if op = "endsWith" then
    match val, w with
    | .str s, .str t => some (pyEndsWith s t)
    | .str _, .int _ => none
    | .int _, _ => some false
  else if op = "regex" then
    match val, w with
    | .str s, .str pat => some (reMatch pat s)
    | .str _, .int _ => none
    | .int _, _ => some false
  else if op = "greaterThan" then
    match val, w with
    | .int a, .int b => some (decide (b < a))
    | .str a, .str b => some (strLt b.toList a.toList)
    | _, _ => none
  else if op = "lessThan" then
    match val, w with
    | .int a, .int b => some (decide (a < b))
    | .str a, .str b => some (strLt a.toList b.toList)
    | _, _ => none
  else if op = "greaterThanOrEqual" then
    match val, w with
    | .int a, .int b => some (decide (b ≤ a))
    | .str a, .str b => some (!strLt a.toList b.toList)
    | _, _ => none
  else if op = "lessThanOrEqual" then
    match val, w with
    | .int a, .int b => some (decide (a ≤ b))
    | .str a, .str b => some (!strLt b.toList a.toList)
    | _, _ => none
  else some false

/-- Python `f.operator or "equals"` (client.py line 83): `None` and the falsy
empty string both dispatch to `"equals"`. -/
def pyOpOr (op : Option String) : String :=
  match op with
  | none => "equals"
  | some s => if s = "" then "equals" else s

/-- client.py `passes_filter` (lines 78-105): missing metadata (`None` or the
falsy empty dict) or a missing key never match; otherwise dispatch on
`f.operator or "equals"` (so the empty-string operator is also dispatched as
equality). -/
def passes_filter (reMatch : String → String → Bool)
    (doc : Document) (f : MetadataFilter) : Option Bool :=
  match doc.metadata with
  | none => some false
  | some m =>
    match List.lookup f.key m with
    | none => some false
    | some val => opApply reMatch (pyOpOr f.operator) val f.value

/-- Python `all(passes_filter(doc, f) for f in filters)`: short-circuits at the
first `False`; a raised `TypeError` (`none`) propagates. -/
def allPassesAux (reMatch : String → String → Bool) (doc : Document) :
    List MetadataFilter → Option Bool
  | [] => some true
  | f :: fs =>
    match passes_filter reMatch doc f with
    | none => none
    | some false => some false
    | some true => allPassesAux reMatch doc fs

/-- The list comprehension of client.py line 107-109, evaluated left to right;
an exception while evaluating any document propagates. -/
def filterAux (reMatch : String → String → Bool) (fs : List MetadataFilter) :
    List Document → Option (List Document)
  | [] => some []
  | d :: ds =>
    match allPassesAux reMatch d fs with
    | none => none
    | some b =>
      match filterAux reMatch fs ds with
      | none => none
      | some rest => some (if b then d :: rest else rest)

/-- client.py `_filter_documents_by_metadata` (lines 72-109).  Python
`if not filters` is true both for `None` and for the empty list. -/
def filter_documents_by_metadata (reMatch : String → String → Bool)
    (docs : List Document) (filters : Option (List MetadataFilter)) :
    Option (List Document) :=
  match filters with
  | none => some docs
  | some [] => some docs
  | some fs => filterAux reMatch fs docs

/-! ### The evaluator the specification describes (spec.md section 4.1)

These definitions follow the SPEC's words, to be compared with
`filter_documents_by_metadata` above: every filter must be satisfied
(logical AND); a document with no metadata or missing the key never matches;
an unrecognized operator evaluates to false; type-mismatched comparisons
evaluate to false rather than failing. -/

/-- Section 4.1 operator semantics, total: "equals, not-equals, contains
(substring, string-typed values only), starts-with, ends-with, regex-match,
greater-than, less-than, greater-or-equal, less-or-equal (numeric or string
ordering per the stored value's type). An unrecognized operator evaluates to
false... type-mismatched comparisons... evaluate to false rather than
failing." -/
def specOpApply (reMatch : String → String → Bool) (op : String) (val w : Value) :
    Bool :=
  if op = "equals" then valEq val w
  else if op = "notEquals" then !valEq val w
  else if op = "contains" then
    match val, w with
    | .str s, .str t => strContains s t
    | _, _ => false
  else if op = "startsWith" then
    match val, w with
    | .str s, .str t => pyStartsWith s t
    | _, _ => false
  else if op = "endsWith" then
    match val, w with
    | .str s, .str t => pyEndsWith s t
    | _, _ => false
  else if op = "regex" then
    match val, w with
    | .str s, .str pat => reMatch pat s
    | _, _ => false
  else if op = "greaterThan" then
    match val, w with
    | .int a, .int b => decide (b < a)
    | .str a, .str b => strLt b.toList a.toList
    | _, _ => false
  else if op = "lessThan" then
    match val, w with
    | .int a, .int b => decide (a < b)
    | .str a, .str b => strLt a.toList b.toList
    | _, _ => false
  else if op = "greaterThanOrEqual" then
    match val, w with
    | .int a, .int b => decide (b ≤ a)
    | .str a, .str b => !strLt a.toList b.toList
    | _, _ => false
  else if op = "lessThanOrEqual" then
    match val, w with
    | .int a, .int b => decide (a ≤ b)
    | .str a, .str b => !strLt b.toList a.toList
    | _, _ => false
  else false

/-- Section 4.1: "return true only if the document's metadata satisfies every
filter... A document with no metadata, or missing the filter's key, fails that
filter unconditionally"; the operator defaults to equality when absent. -/
def specPasses (reMatch : String → String → Bool)
    (doc : Document) (f : MetadataFilter) : Bool :=
  match doc.metadata with
  | none => false
  | some m =>
    match List.lookup f.key m with
    | none => false
    | some val => specOpApply reMatch (f.operator.getD "equals") val f.value

/-- Section 8: "evaluate(D, F) is true iff D satisfies every filter in F
under the operator semantics in 4.1; empty/absent F always yields true". -/
def specFilter (reMatch : String → String → Bool)
    (docs : List Document) (filters : Option (List MetadataFilter)) :
    List Document :=
  match filters with
  | none => docs
  | some fs => docs.filter (fun d => fs.all (specPasses reMatch d))

/-- The section 4.1 single-filter semantics applied to the code's EFFECTIVE
operator (`f.operator or "equals"`): where `specPasses` treats a present
empty-string operator as unrecognized (false), the code dispatches it to
equality — this is the minimal amendment of the section 4.1 semantics that
the code refines (see the C4 theorems). -/
def specPassesEff (reMatch : String → String → Bool)
    (doc : Document) (f : MetadataFilter) : Bool :=
  match doc.metadata with
  | none => false
  | some m =>
    match List.lookup f.key m with
    | none => false
    | some val => specOpApply reMatch (pyOpOr f.operator) val f.value

/-- `specFilter` under the effective-operator amendment. -/
def specFilterEff (reMatch : String → String → Bool)
    (docs : List Document) (filters : Option (List MetadataFilter)) :
    List Document :=
  match filters with
  | none => docs
  | some fs => docs.filter (fun d => fs.all (specPassesEff reMatch d))

/-! ### Document batcher (client.py lines 170-174)

`filtered_documents[i : i + batch_size] for i in range(0, len, batch_size)`
is the evident recursion take/drop; `chunkAux` carries list-length fuel so the
recursion is structural (for positive `bs`, `l.length` steps always suffice,
each step consuming at least one element). -/

def chunkAux (bs : Nat) : Nat → List α → List (List α)
  | 0, _ => []
  | _, [] => []
  | fuel + 1, l@(_ :: _) => l.take bs :: chunkAux bs fuel (l.drop bs)

/-- client.py lines 171-174: the list of consecutive `batch_size`-slices. -/
def chunkList (bs : Nat) (l : List α) : List (List α) := chunkAux bs l.length l

/-! ### JSON values, Python truthiness, pydantic coercion -/

/-- A parsed JSON value (`json.loads` output).  JSON arrays are omitted: every
code path in client.py treats a non-object exactly like `str`/`int` do here
(subscripting raises `TypeError`), and no claim mentions arrays. -/
inductive JVal where
  | null
  | bool (b : Bool)
  | int (n : Int)
  | str (s : String)
  | obj (fields : List (String × JVal))

/-- Python truthiness of a JSON value (`if data["source"].get(...)`). -/
def truthy : JVal → Bool
  | .null => false
  | .bool b => b
  | .int n => n != 0
  | .str s => s != ""
  | .obj fields => !fields.isEmpty

/-- pydantic coercion of a JSON value into the `bool` field
`QueryResult.is_irrelevant`; `none` is a raised `ValidationError`.
(pydantic also accepts strings such as "true"; the only string that can reach
this coercion in client.py is `""`, which raises, so those are omitted.) -/
def pydBool : JVal → Option Bool
  | .bool b => some b
  | .int 0 => some false
  | .int 1 => some true
  | _ => none

/-- pydantic coercion of a JSON value into the `str` fields of `QueryResult`;
`none` is a raised `ValidationError`. -/
def pydStr : JVal → Option String
  | .str s => some s
  | .int n => some (toString n)
  | .bool b => some (if b then "True" else "False")
  | _ => none

/-- A raised Python exception, by class. -/
inductive PyErr where
  | jsonDecode
  | keyError
  | typeError
  | attributeError
  | validationError
  | valueError
  | indexError

/-- Python `data["source"]`: `KeyError` when the key is absent from a dict,
`TypeError` when `data` is not a dict. -/
def jIndex (v : JVal) (key : String) : Except PyErr JVal :=
  match v with
  | .obj fields =>
    match List.lookup key fields with
    | some w => .ok w
    | none => .error .keyError
  | _ => .error .typeError

/-- Python `fields.get(key, dflt)` on a dict known to be a dict. -/
def jGetD (fields : List (String × JVal)) (key : String) (dflt : JVal) : JVal :=
  (List.lookup key fields).getD dflt

/-! ### Conversation memory (memory.py `Memory`) -/

/-- One history entry `{"role": ..., "content": ...}`.  `add_message` performs
no validation (a plain `list.append`), so the content is stored raw. -/
structure Msg where
  role : String
  content : JVal

/-- memory.py `Memory.history`. -/
def Memory := List Msg

/-- memory.py `add_message`: append to the history. -/
def Memory.add_message (m : Memory) (msg : Msg) : Memory :=
  List.append m [msg]

/-- memory.py `get_history`: return the history. -/
def Memory.get_history (m : Memory) : List Msg := m

/-- memory.py `clear`: reset the history to the empty list. -/
def Memory.clear (_ : Memory) : Memory := ([] : List Msg)

/-! ### Query results -/

/-- client.py `QueryResult` (after successful pydantic validation). -/
structure QueryResult where
  content : String
  reasoning : String
  is_irrelevant : Bool
  document : Document

/-- `response.choices[0].message.content` together with the outcome of
`json.loads` on it.  The JSON text parser is external to this embedding, so a
string body carries its parse outcome as data (`none` = `json.JSONDecodeError`);
a non-string body (`ofJVal`) is used as-is by client.py line 215-219. -/
inductive MsgContent where
  | ofString (s : String) (parsed : Option JVal)
  | ofJVal (v : JVal)

/-! ### Think-tag extraction (client.py `_extract_think_content`, lines 111-134)

The four regexes of the source are simple enough to realize directly:
a literal `<think>(.*?)</think>` search, its global substitution, the
case-insensitive bolded `isIrrelevant` marker and the bolded `Answer` marker. -/

/-- Group 1 of `re.search(r'<think>(.*?)</think>', text, DOTALL)`, stripped;
`[]` when there is no match (the source then uses `""`).  The leftmost match
pairs the first `<think>` with the first `</think>` after it. -/
def reasoningOf (cs : List Char) : List Char :=
  match findSub ("<think>".toList) cs with
  | none => []
  | some i =>
    let after := cs.drop (i + 7)
    match findSub ("</think>".toList) after with
    | none => []
    | some j => pyStripList (after.take j)

/-- One pass of `re.sub(r'<think>.*?</think>', '', text, DOTALL)`: remove each
non-overlapping leftmost match, scanning left to right.  The fuel is the list
length, which bounds the number of matches. -/
def removeThinkAux : Nat → List Char → List Char
  | 0, cs => cs
  | fuel + 1, cs =>
    match findSub ("<think>".toList) cs with
    | none => cs
    | some i =>
      let after := cs.drop (i + 7)
      match findSub ("</think>".toList) after with
      | none => cs
      | some j => cs.take i ++ removeThinkAux fuel (after.drop (j + 8))

/-- `re.sub(r'<think>.*?</think>', '', text, DOTALL)`. -/
def removeThink (cs : List Char) : List Char := removeThinkAux cs.length cs

/-- `re.search(r'\*\*isIrrelevant:\*\*\s*(true|false)', _, IGNORECASE)`:
scan for the marker case-insensitively; after it, `\s*` is greedy and neither
alternative of `(true|false)` starts with whitespace, so the maximal munch is
complete; on failure the scan resumes at the next position. -/
def findIrrelevant : List Char → Option Bool
  | [] => none
  | c :: rest =>
    if ("**isirrelevant:**".toList).isPrefixOf (lowerChars (c :: rest)) then
      let tail := ((c :: rest).drop 17).dropWhile pySpace
      if ("true".toList).isPrefixOf (lowerChars tail) then some true
      else if ("false".toList).isPrefixOf (lowerChars tail) then some false
      else findIrrelevant rest
    else findIrrelevant rest

/-- Group 1 of `re.search(r'\*\*Answer:\*\*\s*(.*?)(?:\n|$)', _, DOTALL)`:
at the first (case-sensitive) marker, skip the greedy `\s*`, then the lazy
group runs to the first newline or the end of the string. -/
def findAnswer : List Char → Option (List Char)
  | [] => none
  | c :: rest =>
    if ("**Answer:**".toList).isPrefixOf (c :: rest) then
      some ((((c :: rest).drop 11).dropWhile pySpace).takeWhile (fun ch => ch ≠ '\n'))
    else findAnswer rest

/-- client.py `_extract_think_content`: returns
`(content, reasoning, is_irrelevant)` with defaults `("", reasoning, True)`
when the markers are absent. -/
def extract_think_content (text : String) : String × String × Bool :=
  let cs := text.toList
  let reasoning := (reasoningOf cs).asString
  let remaining := pyStripList (removeThink cs)
  let content :=
    match findAnswer remaining with
    | some a => (pyStripList a).asString
    | none => ""
  let is_irrelevant := (findIrrelevant remaining).getD true
  (content, reasoning, is_irrelevant)

/-! ### Non-streaming dispatcher (client.py `_batch_query`, lines 148-243)

The external completion call is abstracted: `resp i` is the message content the
backend returns for the request built from the `i`-th filtered document
(requests are paired with responses positionally — `asyncio.gather` returns
results in the order its argument tasks were created, and line 197 zips them
against the batch).  The whole body runs inside `try ... except Exception`,
which re-raises any `PyErr` as one "Query failed" exception; the model keeps
the underlying `PyErr`. -/

/-- Lines 213-235: the JSON branch for one document's response `data`.
Returns the updated memory and the appended result, `none` meaning the
response was dropped (`continue`).  Note the source appends the two memory
messages (lines 225-226) before constructing the `QueryResult` (line 228), so
a pydantic `ValidationError` still leaves the messages appended — but it also
aborts the whole query, so the partial memory is never returned. -/
def processJson (prompt : String) (doc : Document) (data : JVal) (mem : Memory) :
    Except PyErr (Memory × Option QueryResult) :=
  match jIndex data "source" with
  | .error e => .error e
  | .ok src =>
    match src with
    | .obj fields =>
      if truthy (jGetD fields "is_irrelevant" (.bool true)) then .ok (mem, none)
      else
        let content := jGetD fields "content" (.str "")
        let mem' := List.append mem [⟨"user", .str prompt⟩, ⟨"assistant", content⟩]
        match pydStr content, pydStr (jGetD fields "reasoning" (.str "")),
              pydBool (jGetD fields "is_irrelevant" (.bool false)) with
        | some c, some r, some b => .ok (mem', some ⟨c, r, b, doc⟩)
        | _, _, _ => .error .validationError
    | _ => .error .attributeError

/-- Lines 197-238: process one `(document, response)` pair of the zip.
`model.startswith("ollama/")` selects the think-tag branch (which appends a
result unconditionally); otherwise the body is parsed as JSON, a
`json.JSONDecodeError` is caught and the pair skipped, and any other exception
propagates.  In the ollama branch a non-string body makes `re.search` raise
`TypeError`. -/
def processOne (model prompt : String) (doc : Document) (mc : MsgContent)
    (mem : Memory) : Except PyErr (Memory × Option QueryResult) :=
  if pyStartsWith model "ollama/" then
    match mc with
    | .ofJVal _ => .error .typeError
    | .ofString s _ =>
      let ex := extract_think_content s
      .ok (List.append mem [⟨"user", .str prompt⟩, ⟨"assistant", .str ex.1⟩],
           some ⟨ex.1, ex.2.1, ex.2.2, doc⟩)
  else
    match mc with
    | .ofString _ none => .ok (mem, none)
    | .ofString _ (some data) => processJson prompt doc data mem
    | .ofJVal data => processJson prompt doc data mem

/-- Pair each batch document with its global index in the filtered list (the
index the positional zip of line 197 associates with its response). -/
def enumFromIdx (i : Nat) : List α → List (Nat × α)
  | [] => []
  | a :: as => (i, a) :: enumFromIdx (i + 1) as

/-- The response-processing loop over one batch (lines 197-238), threading
memory and the accumulated `results` list. -/
def runDocs (model prompt : String) (resp : Nat → MsgContent) :
    List (Nat × Document) → Memory → List QueryResult →
    Except PyErr (Memory × List QueryResult)
  | [], mem, acc => .ok (mem, acc)
  | (i, d) :: rest, mem, acc =>
    match processOne model prompt d (resp i) mem with
    | .error e => .error e
    | .ok (mem', none) => runDocs model prompt resp rest mem' acc
    | .ok (mem', some r) => runDocs model prompt resp rest mem' (List.append acc [r])

/-- The loop over batches (lines 176-238): batches strictly in sequence,
`i` the global index of the first document of the current batch. -/
def runBatches (model prompt : String) (resp : Nat → MsgContent) :
    List (List Document) → Nat → Memory → List QueryResult →
    Except PyErr (List QueryResult × Memory)
  | [], _, mem, acc => .ok (acc, mem)
  | b :: bs, i, mem, acc =>
    match runDocs model prompt resp (enumFromIdx i b) mem acc with
    | .error e => .error e
    | .ok (mem', acc') => runBatches model prompt resp bs (i + b.length) mem' acc'

/-- client.py `_batch_query`: filter, batch (`range(0, n, 0)` raises
`ValueError`), dispatch, and return the retained results together with the
final memory.  `filters` models the converted `options["filter"]` list. -/
def batchQuery (model : String) (batch_size : Nat) (prompt : String)
    (docs : List Document) (filters : Option (List MetadataFilter))
    (reMatch : String → String → Bool) (resp : Nat → MsgContent)
    (mem : Memory) : Except PyErr (List QueryResult × Memory) :=
  match filter_documents_by_metadata reMatch docs filters with
  | none => .error .typeError
  | some filtered =>
    if batch_size = 0 then .error .valueError
    else runBatches model prompt resp (chunkList batch_size filtered) 0 mem []

/-! ### Streaming path (client.py `_streaming_query`, lines 245-283)

The single streaming completion call is abstracted by the chunk list it
produces: `chunks` holds each chunk's `choices[0].delta.content` (`none` =
Python `None`, replaced by `""` at line 278).  The generator is modelled by
the list of yielded chunk contents after full consumption.  The returned
`Document` is the one the single request's system prompt was built from
(line 265 uses `filtered_documents[0]`, raising `IndexError` when the
filtered list is empty — before the request is issued and before memory is
touched).  The final memory is returned in both outcomes. -/
def streamingQuery (prompt : String) (docs : List Document)
    (filters : Option (List MetadataFilter)) (reMatch : String → String → Bool)
    (chunks : List (Option String)) (mem : Memory) :
    Except PyErr (Document × List String) × Memory :=
  match filter_documents_by_metadata reMatch docs filters with
  | none => (.error .typeError, mem)
  | some [] => (.error .indexError, mem)
  | some (d :: _) =>
    let yields := chunks.map (fun c => c.getD "")
    let full := yields.foldl (· ++ ·) ""
    (.ok (d, yields),
     Memory.add_message (Memory.add_message mem ⟨"user", .str prompt⟩)
       ⟨"assistant", .str full⟩)

/-! ### Helper lemmas about one response -/

/-- A falsy JSON value that pydantic accepts as a `bool` is `False`. -/
theorem pydBool_truthy_false {v : JVal} {b : Bool} (ht : truthy v = false)
    (hp : pydBool v = some b) : b = false := by
  cases v with
  | null => simp [pydBool] at hp
  | bool b' => simp [truthy] at ht; simp [pydBool, ht] at hp; simp_all
  | int n =>
    simp [truthy] at ht
    subst ht
    simp [pydBool] at hp
    simp_all
  | str s => simp [truthy, pydBool] at ht hp
  | obj fields => simp [pydBool] at hp

/-- A skipped (dropped) response leaves the memory unchanged. -/
theorem processJson_ok_none {prompt : String} {doc : Document} {data : JVal}
    {mem mem2 : Memory} (h : processJson prompt doc data mem = .ok (mem2, none)) :
    mem2 = mem := by
  unfold processJson at h
  cases hj : jIndex data "source" <;> rw [hj] at h
  case error e => simp at h
  case ok src =>
    cases src <;> simp at h
    case obj fields =>
      by_cases ht : truthy (jGetD fields "is_irrelevant" (JVal.bool true))
      · simp [ht] at h; exact h.symm
      · simp [ht] at h
        split at h <;> simp at h

/-- A retained response appends exactly the user prompt and the assistant
content to memory, and its fields come from the response. -/
theorem processJson_ok_some {prompt : String} {doc : Document} {data : JVal}
    {mem mem2 : Memory} {r : QueryResult}
    (h : processJson prompt doc data mem = .ok (mem2, some r)) :
    r.document = doc ∧ r.is_irrelevant = false ∧
    ∃ c, mem2 = List.append mem [⟨"user", .str prompt⟩, ⟨"assistant", c⟩] ∧
      pydStr c = some r.content := by
  unfold processJson at h
  cases hj : jIndex data "source" <;> rw [hj] at h
  case error e => simp at h
  case ok src =>
    cases src <;> simp at h
    case obj fields =>
      by_cases ht : truthy (jGetD fields "is_irrelevant" (JVal.bool true))
      · simp [ht] at h
      · simp [ht] at h
        split at h <;> simp at h
        case _ c rs b hc hr hb =>
          obtain ⟨hmem, hres⟩ := h
          refine ⟨?_, ?_, jGetD fields "content" (JVal.str ""), hmem.symm, ?_⟩
          · rw [← hres]
          · rw [← hres]
            have hdef : jGetD fields "is_irrelevant" (JVal.bool false) =
                jGetD fields "is_irrelevant" (JVal.bool true) := by
              unfold jGetD at ht ⊢
              cases hl : List.lookup "is_irrelevant" fields with
              | none => simp [hl, truthy] at ht
              | some v => simp [hl]
            rw [hdef] at hb
            have := pydBool_truthy_false (by simpa using ht) hb
            simp [this]
          · rw [← hres]; exact hc

/-- Memory unchanged by a skipped pair, for either parsing branch. -/
theorem processOne_ok_none {model prompt : String} {doc : Document}
    {mc : MsgContent} {mem mem2 : Memory}
    (h : processOne model prompt doc mc mem = .ok (mem2, none)) : mem2 = mem := by
  unfold processOne at h
  cases hsw : pyStartsWith model "ollama/" <;> rw [hsw] at h <;> simp at h
  · cases mc with
    | ofJVal v => exact processJson_ok_none h
    | ofString s parsed =>
      cases parsed with
      | none => simpa using h.symm
      | some data => exact processJson_ok_none h
  · cases mc with
    | ofJVal v => simp at h
    | ofString s parsed => simp at h

/-- A retained pair appends exactly the user prompt followed by the assistant
content, whatever the parsing branch, and the result's `document` field is the
document of the pair. -/
theorem processOne_ok_some {model prompt : String} {doc : Document}
    {mc : MsgContent} {mem mem2 : Memory} {r : QueryResult}
    (h : processOne model prompt doc mc mem = .ok (mem2, some r)) :
    r.document = doc ∧
    ∃ c, mem2 = List.append mem [⟨"user", .str prompt⟩, ⟨"assistant", c⟩] ∧
      pydStr c = some r.content := by
  unfold processOne at h
  cases hsw : pyStartsWith model "ollama/" <;> rw [hsw] at h <;> simp at h
  · cases mc with
    | ofJVal v =>
      have := processJson_ok_some h
      exact ⟨this.1, this.2.2⟩
    | ofString s parsed =>
      cases parsed with
      | none => simp at h
      | some data =>
        have := processJson_ok_some h
        exact ⟨this.1, this.2.2⟩
  · cases mc with
    | ofJVal v => simp at h
    | ofString s parsed =>
      simp at h
      obtain ⟨hmem, hres⟩ := h
      exact ⟨by rw [← hres], JVal.str (extract_think_content s).1, hmem.symm,
        by rw [← hres]; rfl⟩

/-- In the JSON branch (non-ollama models), a retained result is never flagged
irrelevant. -/
theorem processOne_ok_some_irr {model prompt : String} {doc : Document}
    {mc : MsgContent} {mem mem2 : Memory} {r : QueryResult}
    (hsw : pyStartsWith model "ollama/" = false)
    (h : processOne model prompt doc mc mem = .ok (mem2, some r)) :
    r.is_irrelevant = false := by
  unfold processOne at h
  rw [hsw] at h
  simp at h
  cases mc with
  | ofJVal v => exact (processJson_ok_some h).2.1
  | ofString s parsed =>
    cases parsed with
    | none => simp at h
    | some data => exact (processJson_ok_some h).2.1

/-! ### Loop invariants -/

/-- The memory ends with the user prompt followed by the assistant content of
the last retained result, whenever something has been retained. -/
def MemTail (prompt : String) (mem : Memory) (acc : List QueryResult) : Prop :=
  acc ≠ [] → ∃ pre c rs r, acc = List.append rs [r] ∧
    mem = List.append pre [⟨"user", .str prompt⟩, ⟨"assistant", c⟩] ∧
    pydStr c = some r.content

/-- `runDocs` preserves the memory-tail invariant. -/
theorem runDocs_memtail {model prompt : String} {resp : Nat → MsgContent} :
    ∀ {pairs : List (Nat × Document)} {mem : Memory} {acc : List QueryResult}
      {mem' : Memory} {acc' : List QueryResult},
    MemTail prompt mem acc →
    runDocs model prompt resp pairs mem acc = .ok (mem', acc') →
    MemTail prompt mem' acc'
  | [], mem, acc, mem', acc', hmt, h => by
    unfold runDocs at h
    simp at h
    obtain ⟨h1, h2⟩ := h
    rw [← h1, ← h2]; exact hmt
  | (i, d) :: rest, mem, acc, mem', acc', hmt, h => by
    unfold runDocs at h
    cases hp : processOne model prompt d (resp i) mem <;> rw [hp] at h
    case error e => simp at h
    case ok v =>
      obtain ⟨mem1, r?⟩ := v
      cases r? with
      | none =>
        have hm := processOne_ok_none hp
        subst hm
        exact runDocs_memtail hmt h
      | some r =>
        obtain ⟨-, c, hmem1, hc⟩ := processOne_ok_some hp
        refine runDocs_memtail (fun _ => ?_) h
        exact ⟨mem, c, acc, r, rfl, hmem1, hc⟩

/-- `runDocs` only appends: the new results extend the accumulator, their
`document` fields are (in order) among the documents of the processed pairs,
and each processed pair contributes at most one result. -/
theorem runDocs_sub {model prompt : String} {resp : Nat → MsgContent} :
    ∀ {pairs : List (Nat × Document)} {mem : Memory} {acc : List QueryResult}
      {mem' : Memory} {acc' : List QueryResult},
    runDocs model prompt resp pairs mem acc = .ok (mem', acc') →
    ∃ extra, acc' = List.append acc extra ∧
      List.Sublist (extra.map (fun r => r.document)) (pairs.map (fun p => p.2))
  | [], mem, acc, mem', acc', h => by
    unfold runDocs at h
    simp at h
    exact ⟨[], by simp [← h.2], by simp⟩
  | (i, d) :: rest, mem, acc, mem', acc', h => by
    unfold runDocs at h
    cases hp : processOne model prompt d (resp i) mem <;> rw [hp] at h
    case error e => simp at h
    case ok v =>
      obtain ⟨mem1, r?⟩ := v
      cases r? with
      | none =>
        obtain ⟨extra, he, hs⟩ := runDocs_sub h
        exact ⟨extra, he, by simpa using List.Sublist.cons d hs⟩
      | some r =>
        obtain ⟨extra, he, hs⟩ := runDocs_sub h
        obtain ⟨hd, -⟩ := processOne_ok_some hp
        refine ⟨r :: extra, by simpa using he, ?_⟩
        simpa [hd] using List.Sublist.cons₂ d hs

/-- In the JSON branch, `runDocs` preserves "every retained result is
relevant". -/
theorem runDocs_irr {model prompt : String} {resp : Nat → MsgContent}
    (hsw : pyStartsWith model "ollama/" = false) :
    ∀ {pairs : List (Nat × Document)} {mem : Memory} {acc : List QueryResult}
      {mem' : Memory} {acc' : List QueryResult},
    (∀ r ∈ acc, r.is_irrelevant = false) →
    runDocs model prompt resp pairs mem acc = .ok (mem', acc') →
    ∀ r ∈ acc', r.is_irrelevant = false
  | [], mem, acc, mem', acc', hacc, h => by
    unfold runDocs at h
    simp at h
    rw [← h.2]; exact hacc
  | (i, d) :: rest, mem, acc, mem', acc', hacc, h => by
    unfold runDocs at h
    cases hp : processOne model prompt d (resp i) mem <;> rw [hp] at h
    case error e => simp at h
    case ok v =>
      obtain ⟨mem1, r?⟩ := v
      cases r? with
      | none => exact runDocs_irr hsw hacc h
      | some r =>
        refine runDocs_irr hsw (fun x hx => ?_) h
        have : x ∈ acc ∨ x = r := by simpa using hx
        rcases this with hx' | hx'
        · exact hacc x hx'
        · rw [hx']
          exact processOne_ok_some_irr hsw hp

/-- Dropping the index leaves the batch unchanged. -/
theorem enumFromIdx_map_snd : ∀ (i : Nat) (l : List α),
    (enumFromIdx i l).map (fun p => p.2) = l
  | _, [] => rfl
  | i, _ :: as => by simp [enumFromIdx, enumFromIdx_map_snd (i + 1) as]

/-- `runBatches` only appends, and the appended results' documents are in
order among the documents of the remaining batches. -/
theorem runBatches_sub {model prompt : String} {resp : Nat → MsgContent} :
    ∀ {bs : List (List Document)} {i : Nat} {mem : Memory}
      {acc : List QueryResult} {mem' : Memory} {acc' : List QueryResult},
    runBatches model prompt resp bs i mem acc = .ok (acc', mem') →
    ∃ extra, acc' = List.append acc extra ∧
      List.Sublist (extra.map (fun r => r.document)) bs.flatten
  | [], i, mem, acc, mem', acc', h => by
    unfold runBatches at h
    simp at h
    exact ⟨[], by simp [← h.1], by simp⟩
  | b :: rest, i, mem, acc, mem', acc', h => by
    unfold runBatches at h
    cases hd : runDocs model prompt resp (enumFromIdx i b) mem acc <;> rw [hd] at h
    case error e => simp at h
    case ok v =>
      obtain ⟨mem1, acc1⟩ := v
      obtain ⟨e1, he1, hs1⟩ := runDocs_sub hd
      obtain ⟨e2, he2, hs2⟩ := runBatches_sub h
      refine ⟨List.append e1 e2, by rw [he2, he1]; simp, ?_⟩
      simp only [List.flatten_cons, List.map_append, List.append_eq]
      refine List.Sublist.append ?_ hs2
      rwa [enumFromIdx_map_snd] at hs1

/-- `runBatches` preserves the memory-tail invariant. -/
theorem runBatches_memtail {model prompt : String} {resp : Nat → MsgContent} :
    ∀ {bs : List (List Document)} {i : Nat} {mem : Memory}
      {acc : List QueryResult} {mem' : Memory} {acc' : List QueryResult},
    MemTail prompt mem acc →
    runBatches model prompt resp bs i mem acc = .ok (acc', mem') →
    MemTail prompt mem' acc'
  | [], i, mem, acc, mem', acc', hmt, h => by
    unfold runBatches at h
    simp at h
    rw [← h.1, ← h.2]; exact hmt
  | b :: rest, i, mem, acc, mem', acc', hmt, h => by
    unfold runBatches at h
    cases hd : runDocs model prompt resp (enumFromIdx i b) mem acc <;> rw [hd] at h
    case error e => simp at h
    case ok v =>
      obtain ⟨mem1, acc1⟩ := v
      exact runBatches_memtail (runDocs_memtail hmt hd) h

/-- `runBatches` preserves "every retained result is relevant" in the JSON
branch. -/
theorem runBatches_irr {model prompt : String} {resp : Nat → MsgContent}
    (hsw : pyStartsWith model "ollama/" = false) :
    ∀ {bs : List (List Document)} {i : Nat} {mem : Memory}
      {acc : List QueryResult} {mem' : Memory} {acc' : List QueryResult},
    (∀ r ∈ acc, r.is_irrelevant = false) →
    runBatches model prompt resp bs i mem acc = .ok (acc', mem') →
    ∀ r ∈ acc', r.is_irrelevant = false
  | [], i, mem, acc, mem', acc', hacc, h => by
    unfold runBatches at h
    simp at h
    rw [← h.1]; exact hacc
  | b :: rest, i, mem, acc, mem', acc', hacc, h => by
    unfold runBatches at h
    cases hd : runDocs model prompt resp (enumFromIdx i b) mem acc <;> rw [hd] at h
    case error e => simp at h
    case ok v =>
      obtain ⟨mem1, acc1⟩ := v
      exact runBatches_irr hsw (runDocs_irr hsw hacc hd) h

/-! ### Properties of the batcher -/

/-- Chunking the empty list gives no batches. -/
theorem chunkAux_nil (bs : Nat) : ∀ (fuel : Nat), chunkAux (α := α) bs fuel [] = []
  | 0 => rfl
  | _ + 1 => rfl

/-- With enough fuel (`l.length` always is, for positive `bs`),
concatenating the chunks restores the input list. -/
theorem chunkAux_join (bs : Nat) (hbs : 0 < bs) :
    ∀ (fuel : Nat) (l : List α), l.length ≤ fuel → (chunkAux bs fuel l).flatten = l
  | fuel, [] => by cases fuel <;> simp [chunkAux]
  | 0, a :: as => by intro h; simp at h
  | fuel + 1, a :: as => by
    intro h
    unfold chunkAux
    simp only [List.flatten_cons]
    rw [chunkAux_join bs hbs fuel ((a :: as).drop bs)
      (by simp only [List.length_drop]; simp at h ⊢; omega)]
    exact List.take_append_drop bs (a :: as)

/-- Every chunk has at most `bs` elements. -/
theorem chunkAux_mem_le (bs : Nat) :
    ∀ (fuel : Nat) (l : List α) (b : List α), b ∈ chunkAux bs fuel l → b.length ≤ bs
  | 0, l, b => by simp [chunkAux]
  | fuel + 1, [], b => by simp [chunkAux]
  | fuel + 1, a :: as, b => by
    intro hb
    unfold chunkAux at hb
    rcases List.mem_cons.mp hb with h | h
    · rw [h]; simp
    · exact chunkAux_mem_le bs fuel ((a :: as).drop bs) b h

/-- Every chunk except possibly the last has exactly `bs` elements. -/
theorem chunkAux_full (bs : Nat) (hbs : 0 < bs) :
    ∀ (fuel : Nat) (l : List α), l.length ≤ fuel →
    ∀ i, i + 1 < (chunkAux bs fuel l).length →
      ((chunkAux bs fuel l).getD i []).length = bs
  | 0, l, hf, i => by simp [chunkAux]
  | fuel + 1, [], hf, i => by simp [chunkAux]
  | fuel + 1, a :: as, hf, i => by
    intro hi
    unfold chunkAux at hi ⊢
    cases i with
    | zero =>
      simp only [List.getD_cons_zero, List.length_take]
      simp only [List.length_cons] at hi
      have hne : chunkAux bs fuel ((a :: as).drop bs) ≠ [] := by
        intro hnil; rw [hnil] at hi; simp at hi
      have hdrop : (a :: as).drop bs ≠ [] := by
        intro hnil
        rw [hnil, chunkAux_nil] at hne
        exact hne rfl
      have : bs < (a :: as).length := by
        by_contra hle
        exact hdrop (List.drop_eq_nil_of_le (by omega))
      omega
    | succ j =>
      simp only [List.getD_cons_succ]
      simp only [List.length_cons] at hi
      exact chunkAux_full bs hbs fuel ((a :: as).drop bs)
        (by simp only [List.length_drop]; simp at hf ⊢; omega) j (by omega)

/-! ### Refinement: the code's filter evaluator against the section 4.1
semantics, on runs that do not raise -/

set_option maxHeartbeats 2000000 in
/-- Whenever the operator dispatch returns a boolean (does not raise), it is
the section 4.1 verdict. -/
theorem opApply_spec {rm : String → String → Bool} {op : String}
    {val w : Value} {b : Bool} (h : opApply rm op val w = some b) :
    specOpApply rm op val w = b := by
  unfold opApply at h
  unfold specOpApply
  split_ifs at h ⊢ <;>
    first
      | exact Option.some.inj h
      | (cases val <;> cases w <;>
          first
            | exact Option.some.inj h
            | exact absurd h (by simp))

/-- Whenever `passes_filter` returns a boolean (does not raise), it is the
section 4.1 verdict for the effective operator. -/
theorem passes_filter_spec {rm : String → String → Bool} {d : Document}
    {f : MetadataFilter} {b : Bool} (h : passes_filter rm d f = some b) :
    specPassesEff rm d f = b := by
  obtain ⟨nm, ct, md⟩ := d
  cases md with
  | none => simp_all [passes_filter, specPassesEff]
  | some m =>
    simp only [passes_filter, specPassesEff] at h ⊢
    revert h
    generalize List.lookup f.key m = res
    cases res with
    | none => intro h; exact Option.some.inj h
    | some val => intro h; exact opApply_spec h

/-- Whenever the conjunction over all filters returns, it is the section 4.1
"satisfies every filter" verdict. -/
theorem allPasses_spec {rm : String → String → Bool} {d : Document} :
    ∀ {fs : List MetadataFilter} {b : Bool},
    allPassesAux rm d fs = some b → fs.all (specPassesEff rm d) = b
  | [], b, h => by
    simp [allPassesAux] at h
    simp [← h]
  | f :: fs, b, h => by
    unfold allPassesAux at h
    cases hp : passes_filter rm d f <;> rw [hp] at h
    · simp at h
    case some pb =>
      have hs := passes_filter_spec hp
      cases pb with
      | false =>
        simp at h
        simp [List.all_cons, hs, ← h]
      | true =>
        have := allPasses_spec h
        simp [List.all_cons, hs, this]

/-- Whenever the filtering comprehension returns, it returns exactly the
section 4.1 filtered list. -/
theorem filterAux_spec {rm : String → String → Bool} {fs : List MetadataFilter} :
    ∀ {ds : List Document} {res : List Document},
    filterAux rm fs ds = some res →
    res = ds.filter (fun d => fs.all (specPassesEff rm d))
  | [], res, h => by simpa [filterAux] using h.symm
  | d :: ds, res, h => by
    unfold filterAux at h
    cases ha : allPassesAux rm d fs <;> rw [ha] at h
    · simp at h
    case some b =>
      cases hr : filterAux rm fs ds <;> rw [hr] at h
      · simp at h
      case some rest =>
        have ih := filterAux_spec hr
        have hb := allPasses_spec ha
        simp at h
        rw [← h, ih, List.filter_cons, hb]

/-- Whenever the code's filter returns (does not raise), it returns exactly
the section 4.1 filtered list for the effective operator. -/
theorem filter_documents_spec {rm : String → String → Bool}
    {docs : List Document} {filters : Option (List MetadataFilter)}
    {res : List Document}
    (h : filter_documents_by_metadata rm docs filters = some res) :
    res = specFilterEff rm docs filters := by
  cases filters with
  | none => simpa [filter_documents_by_metadata, specFilterEff] using h.symm
  | some fs =>
    cases fs with
    | nil =>
      simp [filter_documents_by_metadata] at h
      simp [specFilterEff, ← h]
    | cons f fs' =>
      have := filterAux_spec (by simpa [filter_documents_by_metadata] using h)
      simpa [specFilterEff] using this

/-- Unpacking a successful `batchQuery` run. -/
theorem batchQuery_ok_elim {model : String} {bs : Nat} {prompt : String}
    {docs : List Document} {filters : Option (List MetadataFilter)}
    {rm : String → String → Bool} {resp : Nat → MsgContent} {mem : Memory}
    {results : List QueryResult} {mem' : Memory}
    (h : batchQuery model bs prompt docs filters rm resp mem = .ok (results, mem')) :
    ∃ filtered, filter_documents_by_metadata rm docs filters = some filtered ∧
      0 < bs ∧
      runBatches model prompt resp (chunkList bs filtered) 0 mem [] =
        .ok (results, mem') := by
  unfold batchQuery at h
  cases hf : filter_documents_by_metadata rm docs filters <;> rw [hf] at h
  · simp at h
  case some filtered =>
    by_cases hbs : bs = 0
    · simp [hbs] at h
    · refine ⟨filtered, rfl, Nat.pos_of_ne_zero hbs, ?_⟩
      simpa [hbs] using h

/-! ### The claims -/

/-- C1 counterexample: with an ollama-prefixed model, the think-tag branch
(client.py lines 201-212) appends the result and the memory messages
unconditionally, so a query returns an element whose `is_irrelevant` is true
(here the backend text has no markers, so `is_irrelevant` defaults to true)
and memory gains two messages — contradicting the claim for this query. -/
theorem C1_counterexample :
    batchQuery "ollama/llama3" 20 "p" [⟨"d", "c", none⟩] none (fun _ _ => false)
      (fun _ => .ofString "hello" none) ([] : Memory) =
      .ok ([⟨"", "", true, ⟨"d", "c", none⟩⟩],
           [⟨"user", .str "p"⟩, ⟨"assistant", .str ""⟩]) ∧
    (⟨"", "", true, ⟨"d", "c", none⟩⟩ : QueryResult).is_irrelevant = true :=
  ⟨rfl, rfl⟩

/-- C1 (amended to models without the `"ollama/"` prefix): an irrelevant or
`is_irrelevant`-less response contributes no result and no memory messages;
no returned element is flagged irrelevant; and the result list is no longer
than the filtered document list. -/
theorem C1_theorem (model : String) (bs : Nat) (prompt : String)
    (docs : List Document) (filters : Option (List MetadataFilter))
    (rm : String → String → Bool) (resp : Nat → MsgContent) (mem : Memory)
    (results : List QueryResult) (mem' : Memory) (filtered : List Document)
    (hsw : pyStartsWith model "ollama/" = false)
    (h : batchQuery model bs prompt docs filters rm resp mem = .ok (results, mem'))
    (hf : filter_documents_by_metadata rm docs filters = some filtered) :
    (∀ r ∈ results, r.is_irrelevant = false) ∧
    results.length ≤ filtered.length ∧
    (∀ (doc : Document) (fields : List (String × JVal)) (m : Memory),
      truthy (jGetD fields "is_irrelevant" (JVal.bool true)) = true →
      processOne model prompt doc (.ofJVal (.obj [("source", .obj fields)])) m =
        .ok (m, none)) := by
  obtain ⟨filtered', hf', hbs, hrun⟩ := batchQuery_ok_elim h
  rw [hf] at hf'
  have hff : filtered' = filtered := by injection hf' with hh; exact hh.symm
  subst hff
  refine ⟨runBatches_irr hsw (by simp) hrun, ?_, ?_⟩
  · obtain ⟨extra, he, hs⟩ := runBatches_sub hrun
    have hres : results = extra := by simpa using he
    have hj : (chunkList bs filtered').flatten = filtered' := by
      simpa [chunkList] using chunkAux_join bs hbs filtered'.length filtered' le_rfl
    have := hs.length_le
    rw [hj] at this
    simpa [hres] using this
  · intro doc fields m ht
    simp [processOne, hsw, processJson, jIndex, List.lookup, ht]

/-- C2 counterexample: `passes_filter` with an integer metadata value ordered
against a string filter value raises a `TypeError` (Python `5 > "a"`), here
modelled as `none`, instead of evaluating to false. -/
theorem C2_counterexample :
    passes_filter (fun _ _ => false)
      ⟨"doc", "text", some [("k", .int 5)]⟩
      ⟨"k", .str "a", some "greaterThan"⟩ = none :=
  rfl

/-- C2 (amended): a string-specific operator (contains / startsWith /
endsWith / regex) applied to a non-string (integer) metadata value evaluates
to false rather than failing; ordering operators between an integer value and
a string filter value instead raise a `TypeError`. -/
theorem C2_theorem (rm : String → String → Bool) (doc : Document)
    (f : MetadataFilter) (m : List (String × Value)) (n : Int)
    (hm : doc.metadata = some m)
    (hl : List.lookup f.key m = some (.int n))
    (hop : f.operator.getD "equals" = "contains" ∨
           f.operator.getD "equals" = "startsWith" ∨
           f.operator.getD "equals" = "endsWith" ∨
           f.operator.getD "equals" = "regex") :
    passes_filter rm doc f = some false := by
  unfold passes_filter
  simp only [hm, hl]
  revert hop
  cases ho : f.operator with
  | none =>
    intro hop
    simp at hop
  | some s =>
    intro hop
    simp only [Option.getD_some] at hop
    rcases hop with hop | hop | hop | hop <;> subst hop <;> cases f.value <;> rfl

/-- C2 witness: a concrete contains-filter over an integer value. -/
theorem C2_witness :
    ((⟨"doc", "text", some [("k", Value.int 3)]⟩ : Document).metadata =
      some [("k", Value.int 3)]) ∧
    List.lookup "k" [("k", Value.int 3)] = some (Value.int 3) ∧
    passes_filter (fun _ _ => false) ⟨"doc", "text", some [("k", Value.int 3)]⟩
      ⟨"k", .str "x", some "contains"⟩ = some false :=
  ⟨rfl, rfl,
    C2_theorem (fun _ _ => false) ⟨"doc", "text", some [("k", Value.int 3)]⟩
      ⟨"k", .str "x", some "contains"⟩ [("k", Value.int 3)] 3 rfl rfl
      (Or.inl rfl)⟩

/-- C3 counterexample: a well-formed JSON body missing the nested `source`
object makes line 221 (`data["source"]`) raise a `KeyError`, which the
`except json.JSONDecodeError` clause does not catch: the query fails instead
of defaulting. -/
theorem C3_counterexample :
    batchQuery "gpt-4o-mini" 20 "p" [⟨"d", "c", none⟩] none (fun _ _ => false)
      (fun _ => .ofString "\x7b\x7d" (some (.obj []))) ([] : Memory) =
      .error .keyError :=
  rfl

/-- C3 (amended): fields missing inside `source` are defaulted —
`is_irrelevant` to true (so the response is dropped without touching memory),
`content` and `reasoning` to the empty string — but a body missing the
`source` object itself raises. -/
theorem C3_theorem (model prompt : String) (doc : Document)
    (fields : List (String × JVal)) (mem : Memory)
    (hsw : pyStartsWith model "ollama/" = false) :
    (List.lookup "is_irrelevant" fields = none →
      processOne model prompt doc (.ofJVal (.obj [("source", .obj fields)])) mem =
        .ok (mem, none)) ∧
    (List.lookup "is_irrelevant" fields = some (.bool false) →
     List.lookup "content" fields = none →
     List.lookup "reasoning" fields = none →
      processOne model prompt doc (.ofJVal (.obj [("source", .obj fields)])) mem =
        .ok (List.append mem [⟨"user", .str prompt⟩, ⟨"assistant", .str ""⟩],
             some ⟨"", "", false, doc⟩)) := by
  constructor
  · intro hirr
    simp [processOne, hsw, processJson, jIndex, List.lookup, jGetD, hirr, truthy]
  · intro hirr hcon hrea
    simp [processOne, hsw, processJson, jIndex, List.lookup, jGetD, hirr, hcon,
      hrea, truthy, pydStr, pydBool]

/-- C3 witness: a source object carrying only `is_irrelevant: false`. -/
theorem C3_witness :
    pyStartsWith "gpt-4o-mini" "ollama/" = false ∧
    ((List.lookup "is_irrelevant" [("is_irrelevant", JVal.bool false)] = none →
      processOne "gpt-4o-mini" "p" ⟨"d", "c", none⟩
        (.ofJVal (.obj [("source", .obj [("is_irrelevant", JVal.bool false)])]))
        ([] : Memory) = .ok (([] : Memory), none)) ∧
     (List.lookup "is_irrelevant" [("is_irrelevant", JVal.bool false)] =
        some (.bool false) →
      List.lookup "content" [("is_irrelevant", JVal.bool false)] = none →
      List.lookup "reasoning" [("is_irrelevant", JVal.bool false)] = none →
      processOne "gpt-4o-mini" "p" ⟨"d", "c", none⟩
        (.ofJVal (.obj [("source", .obj [("is_irrelevant", JVal.bool false)])]))
        ([] : Memory) =
        .ok (List.append ([] : Memory)
              [⟨"user", .str "p"⟩, ⟨"assistant", .str ""⟩],
             some ⟨"", "", false, ⟨"d", "c", none⟩⟩))) :=
  ⟨rfl, C3_theorem "gpt-4o-mini" "p" ⟨"d", "c", none⟩
    [("is_irrelevant", JVal.bool false)] ([] : Memory) rfl⟩

/-- C4 counterexample: two divergences from the claim at concrete inputs.
(a) With the present-but-falsy operator `""`, client.py line 83
(`f.operator or "equals"`) dispatches EQUALITY and accepts the matching
document without raising, while under the section 4.1 semantics `""` is an
unrecognized operator, evaluates to false, and the document does not satisfy
the filter — so "accepts iff satisfies" fails even on a run that returns.
(b) With an integer metadata value and a `lessThan` string filter value the
evaluator raises a `TypeError` (`none`) instead of returning a verdict, while
section 4.1 evaluates the mismatched comparison to false. -/
theorem C4_counterexample :
    filter_documents_by_metadata (fun _ _ => false)
      [⟨"doc", "text", some [("k", .str "v")]⟩]
      (some [⟨"k", .str "v", some ""⟩]) =
      some [⟨"doc", "text", some [("k", .str "v")]⟩] ∧
    specFilter (fun _ _ => false)
      [⟨"doc", "text", some [("k", .str "v")]⟩]
      (some [⟨"k", .str "v", some ""⟩]) = [] ∧
    filter_documents_by_metadata (fun _ _ => false)
      [⟨"doc", "text", some [("v", .int 1)]⟩]
      (some [⟨"v", .str "s", some "lessThan"⟩]) = none ∧
    specFilter (fun _ _ => false)
      [⟨"doc", "text", some [("v", .int 1)]⟩]
      (some [⟨"v", .str "s", some "lessThan"⟩]) = [] :=
  ⟨rfl, rfl, rfl, rfl⟩

/-- C4 (amended): whenever the evaluator returns (raises no `TypeError`), it
accepts exactly the documents satisfying every filter under the section 4.1
operator semantics taken at the code's effective operator
(`operator or "equals"`: an absent operator AND the falsy empty-string
operator both dispatch to equality); in particular an empty or absent filter
list accepts every document, and missing metadata, a missing key, or a
non-empty unrecognized operator fail a filter. -/
theorem C4_theorem (rm : String → String → Bool) (docs : List Document)
    (filters : Option (List MetadataFilter)) (res : List Document)
    (h : filter_documents_by_metadata rm docs filters = some res) :
    res = specFilterEff rm docs filters :=
  filter_documents_spec h

/-- C4 witness: the equals-filter scenario of the test suite, two documents
distinguished by `id`. -/
theorem C4_witness :
    filter_documents_by_metadata (fun _ _ => false)
      [⟨"Superagent", "a", some [("id", .str "sa-1")]⟩,
       ⟨"Superagent", "b", some [("id", .str "sa-2")]⟩]
      (some [⟨"id", .str "sa-1", some "equals"⟩]) =
      some [⟨"Superagent", "a", some [("id", .str "sa-1")]⟩] ∧
    [(⟨"Superagent", "a", some [("id", .str "sa-1")]⟩ : Document)] =
      specFilterEff (fun _ _ => false)
        [⟨"Superagent", "a", some [("id", .str "sa-1")]⟩,
         ⟨"Superagent", "b", some [("id", .str "sa-2")]⟩]
        (some [⟨"id", .str "sa-1", some "equals"⟩]) :=
  ⟨rfl,
    C4_theorem (fun _ _ => false)
      [⟨"Superagent", "a", some [("id", .str "sa-1")]⟩,
       ⟨"Superagent", "b", some [("id", .str "sa-2")]⟩]
      (some [⟨"id", .str "sa-1", some "equals"⟩])
      [⟨"Superagent", "a", some [("id", .str "sa-1")]⟩] rfl⟩

/-- C5: for positive `batch_size` the batcher partitions the filtered list
into consecutive groups: concatenation restores the input in order, every
group has at most `batch_size` documents, and every group except possibly the
last has exactly `batch_size`. -/
theorem C5_theorem (bs : Nat) (l : List Document) (hbs : 0 < bs) :
    (chunkList bs l).flatten = l ∧
    (∀ b ∈ chunkList bs l, b.length ≤ bs) ∧
    (∀ i, i + 1 < (chunkList bs l).length →
      ((chunkList bs l).getD i []).length = bs) := by
  refine ⟨?_, ?_, ?_⟩
  · simpa [chunkList] using chunkAux_join bs hbs l.length l le_rfl
  · intro b hb
    exact chunkAux_mem_le bs l.length l b (by simpa [chunkList] using hb)
  · intro i hi
    simpa [chunkList] using
      chunkAux_full bs hbs l.length l le_rfl i (by simpa [chunkList] using hi)

/-- C5 witness: batch size 2 over three documents. -/
theorem C5_witness :
    0 < 2 ∧
    ((chunkList 2 [(⟨"a", "1", none⟩ : Document), ⟨"b", "2", none⟩,
        ⟨"c", "3", none⟩]).flatten =
      [⟨"a", "1", none⟩, ⟨"b", "2", none⟩, ⟨"c", "3", none⟩] ∧
     (∀ b ∈ chunkList 2 [(⟨"a", "1", none⟩ : Document), ⟨"b", "2", none⟩,
        ⟨"c", "3", none⟩], b.length ≤ 2) ∧
     (∀ i, i + 1 < (chunkList 2 [(⟨"a", "1", none⟩ : Document), ⟨"b", "2", none⟩,
        ⟨"c", "3", none⟩]).length →
      ((chunkList 2 [(⟨"a", "1", none⟩ : Document), ⟨"b", "2", none⟩,
        ⟨"c", "3", none⟩]).getD i []).length = 2)) :=
  ⟨Nat.zero_lt_succ 1,
    C5_theorem 2 [⟨"a", "1", none⟩, ⟨"b", "2", none⟩, ⟨"c", "3", none⟩]
      (Nat.zero_lt_succ 1)⟩

/-- C1 witness: a relevant JSON response for a single document. -/
theorem C1_witness :
    pyStartsWith "gpt-4o-mini" "ollama/" = false ∧
    batchQuery "gpt-4o-mini" 20 "q" [⟨"d", "c", none⟩] none (fun _ _ => false)
      (fun _ => .ofJVal (.obj [("source",
        .obj [("is_irrelevant", .bool false), ("content", .str "A"),
              ("reasoning", .str "r")])])) ([] : Memory) =
      .ok ([⟨"A", "r", false, ⟨"d", "c", none⟩⟩],
           [⟨"user", .str "q"⟩, ⟨"assistant", .str "A"⟩]) ∧
    filter_documents_by_metadata (fun _ _ => false) [⟨"d", "c", none⟩] none =
      some [⟨"d", "c", none⟩] ∧
    ((∀ r ∈ [(⟨"A", "r", false, ⟨"d", "c", none⟩⟩ : QueryResult)],
        r.is_irrelevant = false) ∧
     [(⟨"A", "r", false, ⟨"d", "c", none⟩⟩ : QueryResult)].length ≤
       [(⟨"d", "c", none⟩ : Document)].length ∧
     (∀ (doc : Document) (fields : List (String × JVal)) (m : Memory),
       truthy (jGetD fields "is_irrelevant" (JVal.bool true)) = true →
       processOne "gpt-4o-mini" "q" doc
         (.ofJVal (.obj [("source", .obj fields)])) m = .ok (m, none))) :=
  ⟨rfl, rfl, rfl,
    C1_theorem "gpt-4o-mini" 20 "q" [⟨"d", "c", none⟩] none (fun _ _ => false)
      (fun _ => .ofJVal (.obj [("source",
        .obj [("is_irrelevant", .bool false), ("content", .str "A"),
              ("reasoning", .str "r")])])) ([] : Memory)
      [⟨"A", "r", false, ⟨"d", "c", none⟩⟩]
      [⟨"user", .str "q"⟩, ⟨"assistant", .str "A"⟩]
      [⟨"d", "c", none⟩] rfl rfl rfl⟩

/-- C6 counterexample: with an ollama-prefixed model, a body that is not
well-formed JSON is not skipped — the think-tag branch turns it into a
retained result (with defaults) and two memory messages. -/
theorem C6_counterexample :
    batchQuery "ollama/qwen" 20 "w" [⟨"a", "b", none⟩] none (fun _ _ => false)
      (fun _ => .ofString "not json" none) ([] : Memory) =
      .ok ([⟨"", "", true, ⟨"a", "b", none⟩⟩],
           [⟨"user", .str "w"⟩, ⟨"assistant", .str ""⟩]) :=
  rfl

/-- C6 (amended to models without the `"ollama/"` prefix): a body whose JSON
parse fails is skipped — it yields no result, leaves memory unchanged, and the
rest of the batch behaves exactly as if the pair were absent. -/
theorem C6_theorem (model prompt : String) (resp : Nat → MsgContent)
    (s : String) (d : Document) (i : Nat) (p1 p2 : List (Nat × Document))
    (mem : Memory) (acc : List QueryResult)
    (hsw : pyStartsWith model "ollama/" = false)
    (hr : resp i = .ofString s none) :
    processOne model prompt d (.ofString s none) mem = .ok (mem, none) ∧
    runDocs model prompt resp (p1 ++ (i, d) :: p2) mem acc =
      runDocs model prompt resp (p1 ++ p2) mem acc := by
  have hskip : ∀ m : Memory,
      processOne model prompt d (.ofString s none) m = .ok (m, none) := by
    intro m
    unfold processOne
    rw [hsw]
    rfl
  refine ⟨hskip mem, ?_⟩
  induction p1 generalizing mem acc with
  | nil =>
    simp only [List.nil_append]
    conv_lhs => rw [runDocs]
    rw [hr, hskip]
  | cons a p1' ih =>
    obtain ⟨j, dj⟩ := a
    simp only [List.cons_append]
    unfold runDocs
    cases hp : processOne model prompt dj (resp j) mem with
    | error e => rfl
    | ok v =>
      obtain ⟨m1, r?⟩ := v
      cases r? with
      | none => exact ih m1 acc
      | some r => exact ih m1 (List.append acc [r])

/-- C6 witness: one malformed pair between two other documents. -/
theorem C6_witness :
    pyStartsWith "gpt-4o-mini" "ollama/" = false ∧
    ((fun j => if j = 1 then MsgContent.ofString "oops" none
               else .ofJVal (.obj [("source",
                 .obj [("is_irrelevant", .bool true)])])) 1 =
      .ofString "oops" none) ∧
    (processOne "gpt-4o-mini" "q" ⟨"b", "2", none⟩ (.ofString "oops" none)
      ([] : Memory) = .ok (([] : Memory), none) ∧
     runDocs "gpt-4o-mini" "q"
       (fun j => if j = 1 then MsgContent.ofString "oops" none
                 else .ofJVal (.obj [("source",
                   .obj [("is_irrelevant", .bool true)])]))
       ([(0, ⟨"a", "1", none⟩)] ++ (1, ⟨"b", "2", none⟩) :: [(2, ⟨"c", "3", none⟩)])
       ([] : Memory) [] =
     runDocs "gpt-4o-mini" "q"
       (fun j => if j = 1 then MsgContent.ofString "oops" none
                 else .ofJVal (.obj [("source",
                   .obj [("is_irrelevant", .bool true)])]))
       ([(0, ⟨"a", "1", none⟩)] ++ [(2, ⟨"c", "3", none⟩)])
       ([] : Memory) []) :=
  ⟨rfl, rfl,
    C6_theorem "gpt-4o-mini" "q"
      (fun j => if j = 1 then MsgContent.ofString "oops" none
                else .ofJVal (.obj [("source",
                  .obj [("is_irrelevant", .bool true)])]))
      "oops" ⟨"b", "2", none⟩ 1 [(0, ⟨"a", "1", none⟩)] [(2, ⟨"c", "3", none⟩)]
      ([] : Memory) [] rfl rfl⟩

/-- C7: on a non-empty filtered list the streaming path issues its single
request for the head document only (the tail does not appear in the outcome),
yields exactly the chunk contents, and afterwards memory gains exactly the
user prompt followed by one assistant message holding the concatenation of
all yielded chunk contents. -/
theorem C7_theorem (prompt : String) (docs : List Document)
    (filters : Option (List MetadataFilter)) (rm : String → String → Bool)
    (chunks : List (Option String)) (mem : Memory) (d : Document)
    (rest : List Document)
    (hf : filter_documents_by_metadata rm docs filters = some (d :: rest)) :
    streamingQuery prompt docs filters rm chunks mem =
      (.ok (d, chunks.map (fun c => c.getD "")),
       List.append mem
         [⟨"user", .str prompt⟩,
          ⟨"assistant", .str (String.join (chunks.map (fun c => c.getD "")))⟩]) := by
  unfold streamingQuery
  rw [hf]
  simp [Memory.add_message, String.join]

/-- C7 witness: the spec's streaming scenario, chunks "Super" and
"agent is...". -/
theorem C7_witness :
    filter_documents_by_metadata (fun _ _ => false)
      [⟨"Superagent", "sa", none⟩] none = some [⟨"Superagent", "sa", none⟩] ∧
    streamingQuery "What is Superagent?" [⟨"Superagent", "sa", none⟩] none
      (fun _ _ => false) [some "Super", some "agent is..."] ([] : Memory) =
      (.ok (⟨"Superagent", "sa", none⟩,
        [some "Super", some "agent is..."].map (fun c => c.getD "")),
       List.append ([] : Memory)
         [⟨"user", .str "What is Superagent?"⟩,
          ⟨"assistant", .str (String.join
            ([some "Super", some "agent is..."].map (fun c => c.getD "")))⟩]) :=
  ⟨rfl,
    C7_theorem "What is Superagent?" [⟨"Superagent", "sa", none⟩] none
      (fun _ _ => false) [some "Super", some "agent is..."] ([] : Memory)
      ⟨"Superagent", "sa", none⟩ [] rfl⟩

/-- C8: after a successful non-streaming query that retained at least one
result, the history ends with the user prompt immediately followed by the
assistant content of the last retained result; and clearing the memory leaves
an empty history. -/
theorem C8_theorem (model : String) (bs : Nat) (prompt : String)
    (docs : List Document) (filters : Option (List MetadataFilter))
    (rm : String → String → Bool) (resp : Nat → MsgContent) (mem : Memory)
    (results : List QueryResult) (mem' : Memory)
    (h : batchQuery model bs prompt docs filters rm resp mem = .ok (results, mem'))
    (hne : results ≠ []) :
    (∃ pre c rs r, results = List.append rs [r] ∧
      Memory.get_history mem' =
        List.append pre [⟨"user", .str prompt⟩, ⟨"assistant", c⟩] ∧
      pydStr c = some r.content) ∧
    (∀ m : Memory, (Memory.get_history (Memory.clear m)).length = 0) := by
  obtain ⟨filtered', hf', hbs, hrun⟩ := batchQuery_ok_elim h
  have hmt : MemTail prompt mem' results :=
    runBatches_memtail (fun hcon => absurd rfl hcon) hrun
  obtain ⟨pre, c, rs, r, h1, h2, h3⟩ := hmt hne
  exact ⟨⟨pre, c, rs, r, h1, h2, h3⟩, fun m => rfl⟩

/-- C8 witness: one retained response; history ends `(user q, assistant A)`. -/
theorem C8_witness :
    batchQuery "gpt-4o-mini" 20 "hq" [⟨"d", "c", none⟩] none (fun _ _ => false)
      (fun _ => .ofJVal (.obj [("source",
        .obj [("is_irrelevant", .bool false), ("content", .str "A"),
              ("reasoning", .str "r")])])) ([] : Memory) =
      .ok ([⟨"A", "r", false, ⟨"d", "c", none⟩⟩],
           [⟨"user", .str "hq"⟩, ⟨"assistant", .str "A"⟩]) ∧
    [(⟨"A", "r", false, ⟨"d", "c", none⟩⟩ : QueryResult)] ≠ [] ∧
    ((∃ pre c rs r,
       [(⟨"A", "r", false, ⟨"d", "c", none⟩⟩ : QueryResult)] =
         List.append rs [r] ∧
       Memory.get_history [⟨"user", .str "hq"⟩, ⟨"assistant", .str "A"⟩] =
         List.append pre [⟨"user", .str "hq"⟩, ⟨"assistant", c⟩] ∧
       pydStr c = some r.content) ∧
     (∀ m : Memory, (Memory.get_history (Memory.clear m)).length = 0)) :=
  ⟨rfl, by simp,
    C8_theorem "gpt-4o-mini" 20 "hq" [⟨"d", "c", none⟩] none (fun _ _ => false)
      (fun _ => .ofJVal (.obj [("source",
        .obj [("is_irrelevant", .bool false), ("content", .str "A"),
              ("reasoning", .str "r")])])) ([] : Memory)
      [⟨"A", "r", false, ⟨"d", "c", none⟩⟩]
      [⟨"user", .str "hq"⟩, ⟨"assistant", .str "A"⟩] rfl (by simp)⟩

/-- C9: the returned results are paired positionally with the filtered
documents, so the sequence of their `document` fields is a subsequence of the
filtered list in its original order. -/
theorem C9_theorem (model : String) (bs : Nat) (prompt : String)
    (docs : List Document) (filters : Option (List MetadataFilter))
    (rm : String → String → Bool) (resp : Nat → MsgContent) (mem : Memory)
    (results : List QueryResult) (mem' : Memory) (filtered : List Document)
    (h : batchQuery model bs prompt docs filters rm resp mem = .ok (results, mem'))
    (hf : filter_documents_by_metadata rm docs filters = some filtered) :
    List.Sublist (results.map (fun r => r.document)) filtered := by
  obtain ⟨filtered', hf', hbs, hrun⟩ := batchQuery_ok_elim h
  rw [hf] at hf'
  have hff : filtered' = filtered := by injection hf' with hh; exact hh.symm
  subst hff
  obtain ⟨extra, he, hs⟩ := runBatches_sub hrun
  have hres : results = extra := by simpa using he
  have hj : (chunkList bs filtered').flatten = filtered' := by
    simpa [chunkList] using chunkAux_join bs hbs filtered'.length filtered' le_rfl
  rw [hres]
  rwa [hj] at hs

/-- C9 witness: two documents, the first dropped as irrelevant; the remaining
result's document is the second filtered document, a subsequence of the
filtered list. -/
theorem C9_witness :
    batchQuery "gpt-4o-mini" 20 "q" [⟨"a", "1", none⟩, ⟨"b", "2", none⟩] none
      (fun _ _ => false)
      (fun j => if j = 0 then .ofJVal (.obj [("source",
          .obj [("is_irrelevant", .bool true)])])
        else .ofJVal (.obj [("source",
          .obj [("is_irrelevant", .bool false), ("content", .str "B"),
                ("reasoning", .str "r")])])) ([] : Memory) =
      .ok ([⟨"B", "r", false, ⟨"b", "2", none⟩⟩],
           [⟨"user", .str "q"⟩, ⟨"assistant", .str "B"⟩]) ∧
    filter_documents_by_metadata (fun _ _ => false)
      [⟨"a", "1", none⟩, ⟨"b", "2", none⟩] none =
      some [⟨"a", "1", none⟩, ⟨"b", "2", none⟩] ∧
    List.Sublist
      ([(⟨"B", "r", false, ⟨"b", "2", none⟩⟩ : QueryResult)].map
        (fun r => r.document))
      [⟨"a", "1", none⟩, ⟨"b", "2", none⟩] :=
  ⟨rfl, rfl,
    C9_theorem "gpt-4o-mini" 20 "q" [⟨"a", "1", none⟩, ⟨"b", "2", none⟩] none
      (fun _ _ => false)
      (fun j => if j = 0 then .ofJVal (.obj [("source",
          .obj [("is_irrelevant", .bool true)])])
        else .ofJVal (.obj [("source",
          .obj [("is_irrelevant", .bool false), ("content", .str "B"),
                ("reasoning", .str "r")])])) ([] : Memory)
      [⟨"B", "r", false, ⟨"b", "2", none⟩⟩]
      [⟨"user", .str "q"⟩, ⟨"assistant", .str "B"⟩]
      [⟨"a", "1", none⟩, ⟨"b", "2", none⟩] rfl rfl⟩

/-- C10: when the filtered document list is empty, the streaming path fails
with an `IndexError` at `filtered_documents[0]` (client.py line 265), before
any completion request is issued, and the memory is returned unchanged. -/
theorem C10_theorem (prompt : String) (docs : List Document)
    (filters : Option (List MetadataFilter)) (rm : String → String → Bool)
    (chunks : List (Option String)) (mem : Memory)
    (hf : filter_documents_by_metadata rm docs filters = some []) :
    streamingQuery prompt docs filters rm chunks mem =
      (.error .indexError, mem) := by
  unfold streamingQuery
  rw [hf]

/-- C10 witness: no documents at all. -/
theorem C10_witness :
    filter_documents_by_metadata (fun _ _ => false) [] none = some [] ∧
    streamingQuery "p" [] none (fun _ _ => false) [] ([] : Memory) =
      (.error .indexError, ([] : Memory)) :=
  ⟨rfl, C10_theorem "p" [] none (fun _ _ => false) [] ([] : Memory) rfl⟩

end Reag
